import Mathlib

/-!
Verification of the fixed-size Gaussian Mixture Model in `src/cmmS1/colorHis.h`.

The component count is the source's constant 5, and colors are 3-vectors.
Double-precision values are embedded as exact rationals (`ℚ`) on the
learning/linear-algebra side, and as reals (`ℝ`) on the density-evaluation
side (where `exp` and `sqrt` appear); sample counters (C++ `int`) are
embedded as `ℤ`.  A C++ `CV_Assert` that fails aborts the program, so a
function containing one is embedded as `Option`- (or `Except`-) valued,
returning `none`/`error` when the assertion fires.
-/

namespace ColorGMM

/-- Machine epsilon of IEEE double precision, `std::numeric_limits<double>::epsilon()`. -/
def dblEpsilon : ℚ := 1 / 2 ^ 52

/-- Machine epsilon as a real number, for the density evaluator. -/
noncomputable def dblEpsilonR : ℝ := 1 / 2 ^ 52

/-- The loop `for (ci = 0; ci < componentsCount; ci++)` of the source, with
`componentsCount = 5`, as the list of component indices in scan order. -/
def componentIndices : List (Fin 5) := [0, 1, 2, 3, 4]

/-- The state of the mixture model (`class ColorHistogram` / `GMM`), generic in
the scalar type: `ℚ` for the exact learning-side embedding, `ℝ` for the
density evaluator.  The flat parameter buffer's three views `coefs`, `mean`,
`cov` are held as indexed families; `inverseCovs`/`covDeterms` are the derived
cache and `sums`/`prods`/`sampleCounts`/`totalSampleCount` the accumulator. -/
@[ext]
structure GMM (α : Type) where
  coefs : Fin 5 → α
  mean : Fin 5 → Fin 3 → α
  cov : Fin 5 → Fin 3 → Fin 3 → α
  inverseCovs : Fin 5 → Fin 3 → Fin 3 → α
  covDeterms : Fin 5 → α
  sums : Fin 5 → Fin 3 → α
  prods : Fin 5 → Fin 3 → Fin 3 → α
  sampleCounts : Fin 5 → ℤ
  totalSampleCount : ℤ

instance {α : Type} [DecidableEq α] : DecidableEq (GMM α) := fun a b =>
  decidable_of_iff
    (a.coefs = b.coefs ∧ a.mean = b.mean ∧ a.cov = b.cov ∧
      a.inverseCovs = b.inverseCovs ∧ a.covDeterms = b.covDeterms ∧
      a.sums = b.sums ∧ a.prods = b.prods ∧ a.sampleCounts = b.sampleCounts ∧
      a.totalSampleCount = b.totalSampleCount)
    (by cases a; cases b; simp [GMM.mk.injEq, and_assoc])

/-- The cofactor expansion
`dtrm = c[0]*(c[4]*c[8]-c[5]*c[7]) - c[1]*(c[3]*c[8]-c[5]*c[6]) + c[2]*(c[3]*c[7]-c[4]*c[6])`
of `GMM::calcInverseCovAndDeterm`, with the flat index `3*r + col` written as
`c r col`. -/
def det3 (c : Fin 3 → Fin 3 → ℚ) : ℚ :=
  c 0 0 * (c 1 1 * c 2 2 - c 1 2 * c 2 1)
    - c 0 1 * (c 1 0 * c 2 2 - c 1 2 * c 2 0)
    + c 0 2 * (c 1 0 * c 2 1 - c 1 1 * c 2 0)

/-- `c[0] += singularFix; c[4] += singularFix; c[8] += singularFix`: white
noise added to the covariance diagonal. -/
def addDiag (c : Fin 3 → Fin 3 → ℚ) (singularFix : ℚ) : Fin 3 → Fin 3 → ℚ :=
  fun r col => if r = col then c r col + singularFix else c r col

/-- The nine `inverseCovs[ci][r][c]` adjugate-over-determinant assignments of
`GMM::calcInverseCovAndDeterm`, entry by entry. -/
def inv3 (c : Fin 3 → Fin 3 → ℚ) (dtrm : ℚ) : Fin 3 → Fin 3 → ℚ :=
  ![![ (c 1 1 * c 2 2 - c 1 2 * c 2 1) / dtrm,
       -(c 0 1 * c 2 2 - c 0 2 * c 2 1) / dtrm,
       (c 0 1 * c 1 2 - c 0 2 * c 1 1) / dtrm],
    ![ -(c 1 0 * c 2 2 - c 1 2 * c 2 0) / dtrm,
       (c 0 0 * c 2 2 - c 0 2 * c 2 0) / dtrm,
       -(c 0 0 * c 1 2 - c 0 2 * c 1 0) / dtrm],
    ![ (c 1 0 * c 2 1 - c 1 1 * c 2 0) / dtrm,
       -(c 0 0 * c 2 1 - c 0 1 * c 2 0) / dtrm,
       (c 0 0 * c 1 1 - c 0 1 * c 1 0) / dtrm]]

/-- The covariance `calcInverseCovAndDeterm` ends up working with: the stored
one, with white noise added to the diagonal exactly when
`dtrm <= 1e-6 && singularFix > 0`. -/
def covNew (c : Fin 3 → Fin 3 → ℚ) (singularFix : ℚ) : Fin 3 → Fin 3 → ℚ :=
  if det3 c ≤ 1 / 1000000 ∧ 0 < singularFix then addDiag c singularFix else c

/-- `GMM::calcInverseCovAndDeterm(ci, singularFix)`: skipped entirely when
`coefs[ci] <= 0`; otherwise computes the determinant, regularizes the diagonal
when `dtrm <= 1e-6 && singularFix > 0` and recomputes it (both folded into
`covNew`), then `CV_Assert(dtrm > epsilon)` (embedded as `none` on failure)
and stores the determinant and the adjugate-method inverse in the cache. -/
def calcInverseCovAndDeterm (s : GMM ℚ) (ci : Fin 5) (singularFix : ℚ) :
    Option (GMM ℚ) :=
  if 0 < s.coefs ci then
    let c1 := covNew (s.cov ci) singularFix
    let d1 := det3 c1
    if dblEpsilon < d1 then
      some { s with
        cov := Function.update s.cov ci c1,
        covDeterms := Function.update s.covDeterms ci d1,
        inverseCovs := Function.update s.inverseCovs ci (inv3 c1 d1) }
    else none
  else some s

/-- The mean `endLearning` fits for component `ci`: `sums[ci] * inv_n`. -/
def fitMean (s : GMM ℚ) (ci : Fin 5) : Fin 3 → ℚ :=
  fun k => s.sums ci k * (1 / (s.sampleCounts ci : ℚ))

/-- The covariance `endLearning` fits for component `ci`:
`prods[ci][r][col] * inv_n - m[r] * m[col]`, all nine entries. -/
def fitCov (s : GMM ℚ) (ci : Fin 5) : Fin 3 → Fin 3 → ℚ :=
  fun r col => s.prods ci r col * (1 / (s.sampleCounts ci : ℚ)) - fitMean s ci r * fitMean s ci col

/-- One iteration of the `GMM::endLearning` loop at component `ci`: weight 0
for an unsampled component, else `CV_Assert(totalSampleCount > 0)` (embedded
as `none` on failure), weight `n/totalSampleCount`, mean `sums/n`, covariance
`prods/n - mean*mean`, then `calcInverseCovAndDeterm(ci, 0.01)`. -/
def endStep (s : GMM ℚ) (ci : Fin 5) : Option (GMM ℚ) :=
  if s.sampleCounts ci = 0 then
    some { s with coefs := Function.update s.coefs ci 0 }
  else if s.totalSampleCount ≤ 0 then none
  else
    calcInverseCovAndDeterm
      { s with
        coefs := Function.update s.coefs ci
          ((s.sampleCounts ci : ℚ) / (s.totalSampleCount : ℚ)),
        mean := Function.update s.mean ci (fitMean s ci),
        cov := Function.update s.cov ci (fitCov s ci) }
      ci (1 / 100)

/-- `GMM::endLearning()`: the per-component finalization loop over all five
components in scan order. -/
def endLearning (s : GMM ℚ) : Option (GMM ℚ) :=
  List.foldlM endStep s componentIndices

/-- `GMM::initLearning()`: zero every accumulator. -/
def initLearning (s : GMM ℚ) : GMM ℚ :=
  { s with
    sums := fun _ _ => 0,
    prods := fun _ _ _ => 0,
    sampleCounts := fun _ => 0,
    totalSampleCount := 0 }

/-- `GMM::addSample(ci, color)`: add `color` to the component's vector sum,
its outer product (all nine entries) to the matrix sum, and bump both the
per-component and the total sample counter. -/
def addSample (s : GMM ℚ) (ci : Fin 5) (color : Fin 3 → ℚ) : GMM ℚ :=
  { s with
    sums := Function.update s.sums ci (fun k => s.sums ci k + color k),
    prods := Function.update s.prods ci
      (fun r col => s.prods ci r col + color r * color col),
    sampleCounts := Function.update s.sampleCounts ci (s.sampleCounts ci + 1),
    totalSampleCount := s.totalSampleCount + 1 }

/-- A whole batch of `addSample` calls, in order. -/
def addSamples (s : GMM ℚ) (l : List (Fin 5 × (Fin 3 → ℚ))) : GMM ℚ :=
  l.foldl (fun t p => addSample t p.1 p.2) s

/-- The OpenCV `Mat` handed to the constructor, reduced to the four facts the
constructor inspects: emptiness, element type, shape, and the flat
double-precision contents. -/
structure Mat where
  isEmpty : Bool
  mtype : ℕ
  rows : ℕ
  cols : ℕ
  data : ℕ → ℚ

/-- The OpenCV type tag `CV_64FC1`. -/
def CV64FC1 : ℕ := 6

/-- The two ways the constructor path can abort: `CV_Error(StsBadArg, ...)`
on a malformed model buffer, and a failing `CV_Assert` inside
`calcInverseCovAndDeterm`. -/
inductive CVError where
  | badArg
  | assertFail
deriving DecidableEq

/-- One iteration of the constructor's cache-priming loop:
`if (coefs[ci] > 0) calcInverseCovAndDeterm(ci, 0.0)`. -/
def buildStep (s : GMM ℚ) (ci : Fin 5) : Except CVError (GMM ℚ) :=
  if 0 < s.coefs ci then
    match calcInverseCovAndDeterm s ci 0 with
    | some t => Except.ok t
    | none => Except.error CVError.assertFail
  else Except.ok s

/-- The body of `GMM::GMM(Mat&)` once a well-formed buffer is in hand: bind
the `coefs`/`mean`/`cov` views into the flat data in the source's layout
(weights at offset 0, means at 5, covariances at 20), leave the cache and the
accumulator in their default (zero-modelled) state, run the cache-priming
loop, and finally set `totalSampleCount = 0`. -/
def baseGMM (data : ℕ → ℚ) : GMM ℚ :=
  { coefs := fun ci => data ci.val,
    mean := fun ci k => data (5 + (3 * ci.val + k.val)),
    cov := fun ci r col => data (5 + 3 * 5 + (9 * ci.val + (3 * r.val + col.val))),
    inverseCovs := fun _ _ _ => 0,
    covDeterms := fun _ => 0,
    sums := fun _ _ => 0,
    prods := fun _ _ _ => 0,
    sampleCounts := fun _ => 0,
    totalSampleCount := 0 }

def buildFrom (data : ℕ → ℚ) : Except CVError (GMM ℚ) :=
  Except.map (fun t => { t with totalSampleCount := 0 })
    (List.foldlM buildStep (baseGMM data) componentIndices)

/-- `GMM::GMM(Mat& _model)`: an empty buffer is replaced by a freshly
allocated `1 × (13*5)` `CV_64FC1` zero-filled one; a non-empty buffer of any
other element type or shape raises `StsBadArg`; then the model is built from
the buffer. -/
def construct (m : Mat) : Except CVError (GMM ℚ) :=
  if m.isEmpty then buildFrom (fun _ => 0)
  else if m.mtype ≠ CV64FC1 ∨ m.rows ≠ 1 ∨ m.cols ≠ 13 * 5 then
    Except.error CVError.badArg
  else buildFrom m.data

/-- `GMM::operator()(int ci, const Vec3d color)`: zero for an inactive
component, else the unnormalized Gaussian density
`1/sqrt(covDeterms[ci]) * exp(-0.5 * mult)` with `mult` the quadratic form
written exactly as the source writes it.  The source's
`CV_Assert(covDeterms[ci] > epsilon)` is a precondition on the model state
(`dblEpsilonR < covDeterms ci` whenever `0 < coefs ci`); the theorems that
mention it carry it as a hypothesis. -/
noncomputable def componentDensity (s : GMM ℝ) (ci : Fin 5) (color : Fin 3 → ℝ) : ℝ :=
  if 0 < s.coefs ci then
    let diff : Fin 3 → ℝ := fun k => color k - s.mean ci k
    let mult :=
      diff 0 * (diff 0 * s.inverseCovs ci 0 0 + diff 1 * s.inverseCovs ci 1 0
        + diff 2 * s.inverseCovs ci 2 0)
      + diff 1 * (diff 0 * s.inverseCovs ci 0 1 + diff 1 * s.inverseCovs ci 1 1
        + diff 2 * s.inverseCovs ci 2 1)
      + diff 2 * (diff 0 * s.inverseCovs ci 0 2 + diff 1 * s.inverseCovs ci 1 2
        + diff 2 * s.inverseCovs ci 2 2)
    1 / Real.sqrt (s.covDeterms ci) * Real.exp (-(1 / 2) * mult)
  else 0

/-- `GMM::operator()(const Vec3d color)`: the loop
`res += coefs[ci] * (*this)(ci, color)` over all five components. -/
noncomputable def mixtureDensity (s : GMM ℝ) (color : Fin 3 → ℝ) : ℝ :=
  componentIndices.foldl (fun res ci => res + s.coefs ci * componentDensity s ci color) 0

/-- One iteration of the `GMM::whichComponent` scan: on `p > max`, record the
new best index and density. -/
noncomputable def wcStep (s : GMM ℝ) (color : Fin 3 → ℝ) (acc : Fin 5 × ℝ) (ci : Fin 5) :
    Fin 5 × ℝ :=
  if acc.2 < componentDensity s ci color then (ci, componentDensity s ci color) else acc

/-- `GMM::whichComponent(const Vec3d color)`: sequential scan from the
sentinel `(k, max) = (0, 0)`. -/
noncomputable def whichComponent (s : GMM ℝ) (color : Fin 3 → ℝ) : Fin 5 :=
  (componentIndices.foldl (wcStep s color) (0, 0)).1

/-- The quadratic form `xᵀ C x` of a 3×3 matrix, used to state positive
semidefiniteness of a fitted covariance. -/
def quadForm3 (c : Fin 3 → Fin 3 → ℚ) (x : Fin 3 → ℚ) : ℚ :=
  x 0 * (c 0 0 * x 0 + c 0 1 * x 1 + c 0 2 * x 2)
    + x 1 * (c 1 0 * x 0 + c 1 1 * x 1 + c 1 2 * x 2)
    + x 2 * (c 2 0 * x 0 + c 2 1 * x 1 + c 2 2 * x 2)

/-- The accumulator invariant implicit in `initLearning`/`addSample`: every
per-component counter is non-negative and the total is their sum. -/
def CountInv (s : GMM ℚ) : Prop :=
  (∀ ci, 0 ≤ s.sampleCounts ci) ∧
    s.totalSampleCount = ∑ ci : Fin 5, s.sampleCounts ci

instance (s : GMM ℚ) : Decidable (CountInv s) := by
  unfold CountInv; infer_instance

/-! Concrete model states used to witness the theorems below. -/

/-- The all-zero model state (what an empty-buffer construction yields). -/
def zeroGMM : GMM ℚ :=
  { coefs := fun _ => 0, mean := fun _ _ => 0, cov := fun _ _ _ => 0,
    inverseCovs := fun _ _ _ => 0, covDeterms := fun _ => 0,
    sums := fun _ _ => 0, prods := fun _ _ _ => 0,
    sampleCounts := fun _ => 0, totalSampleCount := 0 }

/-- The origin color. -/
def czero : Fin 3 → ℚ := fun _ => 0

/-- One learning pass feeding a single origin-color sample to component 0. -/
def demoList : List (Fin 5 × (Fin 3 → ℚ)) := [(0, czero)]

/-- The accumulator state after that pass. -/
def oneIn : GMM ℚ := addSamples (initLearning zeroGMM) demoList

/-- `oneIn` with component 0's weight, mean and covariance fitted (the state
`endLearning` hands to `calcInverseCovAndDeterm`). -/
def oneFit : GMM ℚ :=
  { oneIn with
    coefs := Function.update oneIn.coefs 0
      ((oneIn.sampleCounts 0 : ℚ) / (oneIn.totalSampleCount : ℚ)),
    mean := Function.update oneIn.mean 0 (fitMean oneIn 0),
    cov := Function.update oneIn.cov 0 (fitCov oneIn 0) }

/-- The model state `endLearning` produces from `oneIn`. -/
def oneOut : GMM ℚ :=
  { oneFit with
    cov := Function.update oneFit.cov 0 (covNew (oneFit.cov 0) (1 / 100)),
    covDeterms := Function.update oneFit.covDeterms 0 (det3 (covNew (oneFit.cov 0) (1 / 100))),
    inverseCovs := Function.update oneFit.inverseCovs 0
      (inv3 (covNew (oneFit.cov 0) (1 / 100)) (det3 (covNew (oneFit.cov 0) (1 / 100)))) }

/-- An active component whose (symmetric, but not positive-semidefinite)
covariance has determinant 0: the white-noise fix leaves its determinant at 0
and the assertion in `calcInverseCovAndDeterm` fires. -/
def cexC6In : GMM ℚ :=
  { zeroGMM with
    coefs := fun ci => if ci = 0 then 1 else 0,
    cov := fun ci r col => if ci = 0 ∧ r = 0 ∧ col = 0 then -(1 / 100) else 0 }

/-- An active component with the (positive-semidefinite) zero covariance. -/
def psdIn : GMM ℚ :=
  { zeroGMM with coefs := fun ci => if ci = 0 then 1 else 0 }

/-- An active component whose covariance `diag(0, 0, -99/10000)` is fixed by
one round of regularization to determinant `1e-8` — small enough that a second
`calcInverseCovAndDeterm` call regularizes (and so mutates) again. -/
def cexC7In : GMM ℚ :=
  { zeroGMM with
    coefs := fun ci => if ci = 0 then 1 else 0,
    cov := fun ci r col => if ci = 0 ∧ r = 2 ∧ col = 2 then -(99 / 10000) else 0 }

/-- An active component with the identity covariance. -/
def idIn : GMM ℚ :=
  { zeroGMM with
    coefs := fun ci => if ci = 0 then 1 else 0,
    cov := fun ci r col => if ci = 0 ∧ r = col then 1 else 0 }

/-- The state one `calcInverseCovAndDeterm(0, 0.01)` call produces from `idIn`. -/
def idOut : GMM ℚ :=
  { idIn with
    cov := Function.update idIn.cov 0 (covNew (idIn.cov 0) (1 / 100)),
    covDeterms := Function.update idIn.covDeterms 0 (det3 (covNew (idIn.cov 0) (1 / 100))),
    inverseCovs := Function.update idIn.inverseCovs 0
      (inv3 (covNew (idIn.cov 0) (1 / 100)) (det3 (covNew (idIn.cov 0) (1 / 100)))) }

/-- The state one `calcInverseCovAndDeterm(0, 0.01)` call produces from
`cexC7In` (determinant regularized up to 1e-8). -/
def cexC7Mid : GMM ℚ :=
  { cexC7In with
    cov := Function.update cexC7In.cov 0 (covNew (cexC7In.cov 0) (1 / 100)),
    covDeterms := Function.update cexC7In.covDeterms 0
      (det3 (covNew (cexC7In.cov 0) (1 / 100))),
    inverseCovs := Function.update cexC7In.inverseCovs 0
      (inv3 (covNew (cexC7In.cov 0) (1 / 100)) (det3 (covNew (cexC7In.cov 0) (1 / 100)))) }

/-- The state a second `calcInverseCovAndDeterm(0, 0.01)` call produces from
`cexC7Mid`: it regularizes again. -/
def cexC7End : GMM ℚ :=
  { cexC7Mid with
    cov := Function.update cexC7Mid.cov 0 (covNew (cexC7Mid.cov 0) (1 / 100)),
    covDeterms := Function.update cexC7Mid.covDeterms 0
      (det3 (covNew (cexC7Mid.cov 0) (1 / 100))),
    inverseCovs := Function.update cexC7Mid.inverseCovs 0
      (inv3 (covNew (cexC7Mid.cov 0) (1 / 100)) (det3 (covNew (cexC7Mid.cov 0) (1 / 100)))) }

/-- A real-valued model state: every weight 1, zero means, identity inverse
covariances, unit determinants. -/
noncomputable def sR : GMM ℝ :=
  { coefs := fun _ => 1, mean := fun _ _ => 0, cov := fun _ _ _ => 0,
    inverseCovs := fun _ r col => if r = col then 1 else 0, covDeterms := fun _ => 1,
    sums := fun _ _ => 0, prods := fun _ _ _ => 0,
    sampleCounts := fun _ => 0, totalSampleCount := 0 }

/-- The origin color, real-valued. -/
noncomputable def czeroR : Fin 3 → ℝ := fun _ => 0

end ColorGMM

namespace ColorGMM

/-! Characterization lemmas for `calcInverseCovAndDeterm`. -/

lemma calc_not_active {s : GMM ℚ} {ci : Fin 5} {fix : ℚ} (h : ¬ 0 < s.coefs ci) :
    calcInverseCovAndDeterm s ci fix = some s := by
  simp only [calcInverseCovAndDeterm, if_neg h]

lemma calc_active (s : GMM ℚ) (ci : Fin 5) (fix : ℚ) (h : 0 < s.coefs ci)
    (hg : dblEpsilon < det3 (covNew (s.cov ci) fix)) :
    calcInverseCovAndDeterm s ci fix = some
      { s with
        cov := Function.update s.cov ci (covNew (s.cov ci) fix),
        covDeterms := Function.update s.covDeterms ci (det3 (covNew (s.cov ci) fix)),
        inverseCovs := Function.update s.inverseCovs ci
          (inv3 (covNew (s.cov ci) fix) (det3 (covNew (s.cov ci) fix))) } := by
  simp only [calcInverseCovAndDeterm, if_pos h, if_pos hg]

lemma calc_eq_some {s t : GMM ℚ} {ci : Fin 5} {fix : ℚ} (h : 0 < s.coefs ci)
    (he : calcInverseCovAndDeterm s ci fix = some t) :
    dblEpsilon < det3 (covNew (s.cov ci) fix) ∧
      t = { s with
        cov := Function.update s.cov ci (covNew (s.cov ci) fix),
        covDeterms := Function.update s.covDeterms ci (det3 (covNew (s.cov ci) fix)),
        inverseCovs := Function.update s.inverseCovs ci
          (inv3 (covNew (s.cov ci) fix) (det3 (covNew (s.cov ci) fix))) } := by
  simp only [calcInverseCovAndDeterm, if_pos h] at he
  by_cases hg : dblEpsilon < det3 (covNew (s.cov ci) fix)
  · rw [if_pos hg] at he
    exact ⟨hg, (Option.some_inj.mp he).symm⟩
  · rw [if_neg hg] at he
    exact absurd he (by simp)

/-! Characterization lemmas for `endStep` and the `endLearning` loop. -/

lemma endStep_acc {s t : GMM ℚ} {ci : Fin 5} (h : endStep s ci = some t) :
    t.sums = s.sums ∧ t.prods = s.prods ∧ t.sampleCounts = s.sampleCounts ∧
      t.totalSampleCount = s.totalSampleCount := by
  by_cases h0 : s.sampleCounts ci = 0
  · simp only [endStep, if_pos h0] at h
    obtain rfl := Option.some_inj.mp h
    exact ⟨rfl, rfl, rfl, rfl⟩
  · by_cases ht : s.totalSampleCount ≤ 0
    · simp only [endStep, if_neg h0, if_pos ht] at h
      exact absurd h (by simp)
    · simp only [endStep, if_neg h0, if_neg ht] at h
      by_cases hc : 0 < ((s.sampleCounts ci : ℚ) / (s.totalSampleCount : ℚ))
      · obtain ⟨-, rfl⟩ := calc_eq_some (by simpa [Function.update_same] using hc) h
        exact ⟨rfl, rfl, rfl, rfl⟩
      · rw [calc_not_active (by simpa [Function.update_same] using hc)] at h
        obtain rfl := Option.some_inj.mp h
        exact ⟨rfl, rfl, rfl, rfl⟩

lemma endStep_frame {s t : GMM ℚ} {ci : Fin 5} (h : endStep s ci = some t)
    (cj : Fin 5) (hne : cj ≠ ci) :
    t.coefs cj = s.coefs cj ∧ t.mean cj = s.mean cj ∧ t.cov cj = s.cov cj ∧
      t.inverseCovs cj = s.inverseCovs cj ∧ t.covDeterms cj = s.covDeterms cj := by
  by_cases h0 : s.sampleCounts ci = 0
  · simp only [endStep, if_pos h0] at h
    obtain rfl := Option.some_inj.mp h
    simp [Function.update_noteq hne]
  · by_cases ht : s.totalSampleCount ≤ 0
    · simp only [endStep, if_neg h0, if_pos ht] at h
      exact absurd h (by simp)
    · simp only [endStep, if_neg h0, if_neg ht] at h
      by_cases hc : 0 < ((s.sampleCounts ci : ℚ) / (s.totalSampleCount : ℚ))
      · obtain ⟨-, rfl⟩ := calc_eq_some (by simpa [Function.update_same] using hc) h
        simp [Function.update_noteq hne]
      · rw [calc_not_active (by simpa [Function.update_same] using hc)] at h
        obtain rfl := Option.some_inj.mp h
        simp [Function.update_noteq hne]

end ColorGMM

namespace ColorGMM

lemma endStep_spec {s t : GMM ℚ} {ci : Fin 5} (h : endStep s ci = some t) :
    (s.sampleCounts ci = 0 → t.coefs ci = 0) ∧
    (0 < s.sampleCounts ci →
      0 < s.totalSampleCount ∧
      t.coefs ci = (s.sampleCounts ci : ℚ) / (s.totalSampleCount : ℚ) ∧
      t.mean ci = fitMean s ci ∧
      t.cov ci = covNew (fitCov s ci) (1 / 100) ∧
      t.covDeterms ci = det3 (covNew (fitCov s ci) (1 / 100)) ∧
      dblEpsilon < det3 (covNew (fitCov s ci) (1 / 100)) ∧
      t.inverseCovs ci = inv3 (covNew (fitCov s ci) (1 / 100))
        (det3 (covNew (fitCov s ci) (1 / 100)))) := by
  constructor
  · intro h0
    simp only [endStep, if_pos h0] at h
    obtain rfl := Option.some_inj.mp h
    simp [Function.update_same]
  · intro hn
    have h0 : ¬ s.sampleCounts ci = 0 := by omega
    by_cases ht : s.totalSampleCount ≤ 0
    · simp only [endStep, if_neg h0, if_pos ht] at h
      exact absurd h (by simp)
    · have htot : 0 < s.totalSampleCount := by omega
      simp only [endStep, if_neg h0, if_neg ht] at h
      have hc : (0 : ℚ) < (s.sampleCounts ci : ℚ) / (s.totalSampleCount : ℚ) :=
        div_pos (by exact_mod_cast hn) (by exact_mod_cast htot)
      obtain ⟨hg, rfl⟩ := calc_eq_some (by simpa [Function.update_same] using hc) h
      refine ⟨htot, by simp [Function.update_same], by simp [Function.update_same],
        by simp [Function.update_same], by simp [Function.update_same],
        by simpa [Function.update_same] using hg, by simp [Function.update_same]⟩

lemma foldl_endStep_acc :
    ∀ (l : List (Fin 5)) (s t : GMM ℚ), List.foldlM endStep s l = some t →
      t.sums = s.sums ∧ t.prods = s.prods ∧ t.sampleCounts = s.sampleCounts ∧
        t.totalSampleCount = s.totalSampleCount := by
  intro l
  induction l with
  | nil =>
    intro s t h
    obtain rfl := Option.some_inj.mp h
    exact ⟨rfl, rfl, rfl, rfl⟩
  | cons a l ih =>
    intro s t h
    rw [List.foldlM_cons] at h
    obtain ⟨s1, h1, h2⟩ := Option.bind_eq_some.mp h
    obtain ⟨e1, e2, e3, e4⟩ := endStep_acc h1
    obtain ⟨f1, f2, f3, f4⟩ := ih s1 t h2
    exact ⟨f1.trans e1, f2.trans e2, f3.trans e3, f4.trans e4⟩

lemma foldl_endStep_frame :
    ∀ (l : List (Fin 5)) (s t : GMM ℚ), List.foldlM endStep s l = some t →
      ∀ cj, cj ∉ l →
        t.coefs cj = s.coefs cj ∧ t.mean cj = s.mean cj ∧ t.cov cj = s.cov cj ∧
          t.inverseCovs cj = s.inverseCovs cj ∧ t.covDeterms cj = s.covDeterms cj := by
  intro l
  induction l with
  | nil =>
    intro s t h cj _
    obtain rfl := Option.some_inj.mp h
    exact ⟨rfl, rfl, rfl, rfl, rfl⟩
  | cons a l ih =>
    intro s t h cj hcj
    rw [List.foldlM_cons] at h
    obtain ⟨s1, h1, h2⟩ := Option.bind_eq_some.mp h
    have hne : cj ≠ a := fun hh => hcj (hh ▸ List.mem_cons_self a l)
    have hnl : cj ∉ l := fun hh => hcj (List.mem_cons_of_mem a hh)
    obtain ⟨e1, e2, e3, e4, e5⟩ := endStep_frame h1 cj hne
    obtain ⟨f1, f2, f3, f4, f5⟩ := ih s1 t h2 cj hnl
    exact ⟨f1.trans e1, f2.trans e2, f3.trans e3, f4.trans e4, f5.trans e5⟩

lemma foldl_endStep_spec :
    ∀ (l : List (Fin 5)), l.Nodup → ∀ (s t : GMM ℚ), List.foldlM endStep s l = some t →
      ∀ ci, ci ∈ l →
        (s.sampleCounts ci = 0 → t.coefs ci = 0) ∧
        (0 < s.sampleCounts ci →
          0 < s.totalSampleCount ∧
          t.coefs ci = (s.sampleCounts ci : ℚ) / (s.totalSampleCount : ℚ) ∧
          t.mean ci = fitMean s ci ∧
          t.cov ci = covNew (fitCov s ci) (1 / 100) ∧
          t.covDeterms ci = det3 (covNew (fitCov s ci) (1 / 100)) ∧
          dblEpsilon < det3 (covNew (fitCov s ci) (1 / 100)) ∧
          t.inverseCovs ci = inv3 (covNew (fitCov s ci) (1 / 100))
            (det3 (covNew (fitCov s ci) (1 / 100)))) := by
  intro l
  induction l with
  | nil => intro _ s t _ ci hci; exact absurd hci (List.not_mem_nil ci)
  | cons a l ih =>
    intro hnd s t h ci hci
    rw [List.foldlM_cons] at h
    obtain ⟨s1, h1, h2⟩ := Option.bind_eq_some.mp h
    rcases List.mem_cons.mp hci with rfl | hmem
    · -- the step at `ci` itself, then the rest of the loop leaves `ci` alone
      have hrest : ci ∉ l := (List.nodup_cons.mp hnd).1
      obtain ⟨f1, f2, f3, f4, f5⟩ := foldl_endStep_frame l s1 t h2 ci hrest
      obtain ⟨g1, g2⟩ := endStep_spec h1
      refine ⟨fun h0 => f1.trans (g1 h0), fun hn => ?_⟩
      obtain ⟨p1, p2, p3, p4, p5, p6, p7⟩ := g2 hn
      exact ⟨p1, f1.trans p2, f2.trans p3, f3.trans p4, f5.trans p5, p6, f4.trans p7⟩
    · -- `ci` comes later: the first step preserves its accumulator inputs
      obtain ⟨e1, e2, e3, e4⟩ := endStep_acc h1
      have hspec := ih (List.nodup_cons.mp hnd).2 s1 t h2 ci hmem
      have hfit1 : fitMean s1 ci = fitMean s ci := by
        funext k; simp only [fitMean]; rw [e1, e3]
      have hfit2 : fitCov s1 ci = fitCov s ci := by
        funext r col; simp only [fitCov]; rw [e2, e3, hfit1]
      rw [e3, e4, hfit1, hfit2] at hspec
      exact hspec

end ColorGMM

namespace ColorGMM

lemma mem_componentIndices : ∀ ci : Fin 5, ci ∈ componentIndices := by decide

lemma nodup_componentIndices : componentIndices.Nodup := by decide

/-- Claim C1: after a successful `endLearning` pass, a component with sample
count 0 has weight 0, and a component with sample count `n > 0` (with
`totalSampleCount > 0`, which the pass asserts) has weight
`n/totalSampleCount`, mean `sums/n`, fitted covariance
`prods/n - mean*mean`, and a cache recomputed from that covariance with
singularity-fix magnitude `0.01`. -/
theorem spec_C1 (s s' : GMM ℚ) (h : endLearning s = some s') (ci : Fin 5) :
    (s.sampleCounts ci = 0 → s'.coefs ci = 0) ∧
    (0 < s.sampleCounts ci →
      0 < s.totalSampleCount ∧
      s'.coefs ci = (s.sampleCounts ci : ℚ) / (s.totalSampleCount : ℚ) ∧
      (∀ k, s'.mean ci k = s.sums ci k / (s.sampleCounts ci : ℚ)) ∧
      (∀ r col, fitCov s ci r col = s.prods ci r col / (s.sampleCounts ci : ℚ) -
        (s.sums ci r / (s.sampleCounts ci : ℚ)) * (s.sums ci col / (s.sampleCounts ci : ℚ))) ∧
      s'.cov ci = covNew (fitCov s ci) (1 / 100) ∧
      s'.covDeterms ci = det3 (covNew (fitCov s ci) (1 / 100)) ∧
      dblEpsilon < s'.covDeterms ci ∧
      s'.inverseCovs ci = inv3 (covNew (fitCov s ci) (1 / 100))
        (det3 (covNew (fitCov s ci) (1 / 100)))) := by
  obtain ⟨g1, g2⟩ := foldl_endStep_spec componentIndices nodup_componentIndices s s' h ci
    (mem_componentIndices ci)
  refine ⟨g1, fun hn => ?_⟩
  obtain ⟨p1, p2, p3, p4, p5, p6, p7⟩ := g2 hn
  refine ⟨p1, p2, fun k => ?_, fun r col => ?_, p4, p5, p5 ▸ p6, p7⟩
  · rw [p3, fitMean, mul_one_div]
  · simp [fitCov, fitMean, mul_one_div]
    ring

lemma endLearning_zeroInput : endLearning (initLearning zeroGMM) = some zeroGMM := by
  simp only [endLearning, componentIndices, List.foldlM_cons, List.foldlM_nil,
    endStep, initLearning, zeroGMM, Option.bind_eq_bind, Option.some_bind]
  norm_num [Function.update_apply]

/-- Witness for C1 at a concrete pass with no samples: every component ends
inactive. -/
theorem spec_C1_witness :
    endLearning (initLearning zeroGMM) = some zeroGMM ∧ zeroGMM.coefs 0 = 0 :=
  ⟨endLearning_zeroInput,
    (spec_C1 _ _ endLearning_zeroInput 0).1 rfl⟩

/-! The accumulator invariant and claim C10. -/

lemma initLearning_countInv (s : GMM ℚ) : CountInv (initLearning s) := by
  constructor
  · intro ci; simp [initLearning]
  · simp [initLearning]

lemma addSample_sampleCounts (s : GMM ℚ) (ci : Fin 5) (color : Fin 3 → ℚ) (cj : Fin 5) :
    (addSample s ci color).sampleCounts cj =
      s.sampleCounts cj + if cj = ci then 1 else 0 := by
  by_cases hj : cj = ci
  · subst hj; simp [addSample, Function.update_same]
  · simp [addSample, Function.update_noteq hj, hj]

lemma addSample_total (s : GMM ℚ) (ci : Fin 5) (color : Fin 3 → ℚ) :
    (addSample s ci color).totalSampleCount = s.totalSampleCount + 1 := rfl

lemma addSample_countInv {s : GMM ℚ} (ci : Fin 5) (color : Fin 3 → ℚ)
    (h : CountInv s) : CountInv (addSample s ci color) := by
  obtain ⟨h1, h2⟩ := h
  constructor
  · intro cj
    rw [addSample_sampleCounts]
    have := h1 cj
    split_ifs <;> omega
  · rw [addSample_total, h2]
    have hsum : ∑ cj : Fin 5, (addSample s ci color).sampleCounts cj
        = ∑ cj : Fin 5, (s.sampleCounts cj + if cj = ci then 1 else 0) :=
      Finset.sum_congr rfl fun cj _ => addSample_sampleCounts s ci color cj
    rw [hsum, Finset.sum_add_distrib, Finset.sum_ite_eq' Finset.univ ci (fun _ => (1 : ℤ))]
    simp

/-- Claim C10 (implicit accumulator invariant): `initLearning` establishes
`totalSampleCount = Σ sampleCounts` with all counts non-negative, every
`addSample` preserves it, and each `addSample` bumps exactly one component
count and the total by 1. -/
theorem spec_C10 (s : GMM ℚ) :
    CountInv (initLearning s) ∧
    (∀ t ci color, CountInv t → CountInv (addSample t ci color)) ∧
    (∀ (t : GMM ℚ) ci color cj, (addSample t ci color).sampleCounts cj =
      t.sampleCounts cj + if cj = ci then 1 else 0) ∧
    (∀ (t : GMM ℚ) ci color, (addSample t ci color).totalSampleCount =
      t.totalSampleCount + 1) :=
  ⟨initLearning_countInv s, fun _ ci color h => addSample_countInv ci color h,
    addSample_sampleCounts, addSample_total⟩

end ColorGMM

namespace ColorGMM

lemma addSamples_countInv : ∀ (l : List (Fin 5 × (Fin 3 → ℚ))) (s : GMM ℚ),
    CountInv s → CountInv (addSamples s l) := by
  intro l
  induction l with
  | nil => intro s h; exact h
  | cons p l ih =>
    intro s h
    exact ih (addSample s p.1 p.2) (addSample_countInv p.1 p.2 h)

lemma addSamples_total : ∀ (l : List (Fin 5 × (Fin 3 → ℚ))) (s : GMM ℚ),
    (addSamples s l).totalSampleCount = s.totalSampleCount + l.length := by
  intro l
  induction l with
  | nil => intro s; simp [addSamples]
  | cons p l ih =>
    intro s
    have := ih (addSample s p.1 p.2)
    simp only [addSamples, List.foldl_cons] at this ⊢
    rw [this, addSample_total]
    simp only [List.length_cons]
    push_cast
    ring

/-- Claim C2: after a pass that begins with `initLearning`, feeds at least one
sample, and ends with a successful `endLearning`, the weights of the sampled
components sum to exactly 1. -/
theorem spec_C2 (s0 : GMM ℚ) (l : List (Fin 5 × (Fin 3 → ℚ))) (s' : GMM ℚ)
    (hl : l ≠ [])
    (h : endLearning (addSamples (initLearning s0) l) = some s') :
    ∑ ci ∈ Finset.univ.filter
      (fun ci => 0 < (addSamples (initLearning s0) l).sampleCounts ci),
      s'.coefs ci = 1 := by
  set s1 := addSamples (initLearning s0) l with hs1
  obtain ⟨hnn, hsum⟩ := addSamples_countInv l (initLearning s0) (initLearning_countInv s0)
  rw [← hs1] at hnn hsum
  have htot : 0 < s1.totalSampleCount := by
    rw [hs1, addSamples_total]
    simp only [initLearning]
    have : 0 < l.length := List.length_pos.mpr hl
    omega
  have hcoef : ∀ ci ∈ Finset.univ.filter (fun ci => 0 < s1.sampleCounts ci),
      s'.coefs ci = (s1.sampleCounts ci : ℚ) / (s1.totalSampleCount : ℚ) := by
    intro ci hci
    rw [Finset.mem_filter] at hci
    exact ((foldl_endStep_spec componentIndices nodup_componentIndices s1 s' h ci
      (mem_componentIndices ci)).2 hci.2).2.1
  rw [Finset.sum_congr rfl hcoef, ← Finset.sum_div]
  have hcast : ∑ ci ∈ Finset.univ.filter (fun ci => 0 < s1.sampleCounts ci),
      (s1.sampleCounts ci : ℚ)
      = ((∑ ci ∈ Finset.univ.filter (fun ci => 0 < s1.sampleCounts ci),
          s1.sampleCounts ci : ℤ) : ℚ) := by
    push_cast
    rfl
  have hfull : ∑ ci ∈ Finset.univ.filter (fun ci => 0 < s1.sampleCounts ci),
      s1.sampleCounts ci = ∑ ci : Fin 5, s1.sampleCounts ci :=
    Finset.sum_subset (Finset.filter_subset _ _)
      (fun ci _ hci => by
        simp only [Finset.mem_filter, Finset.mem_univ, true_and, not_lt] at hci
        have := hnn ci
        omega)
  rw [hcast, hfull, ← hsum, div_self]
  exact Int.cast_ne_zero.mpr (by omega)

/-! Concrete evaluation of the one-sample pass, for the witnesses. -/

lemma endStep_keep {s : GMM ℚ} (ci : Fin 5) (h0 : s.sampleCounts ci = 0)
    (hc : s.coefs ci = 0) : endStep s ci = some s := by
  rw [endStep, if_pos h0]
  have : Function.update s.coefs ci 0 = s.coefs := by
    rw [← hc, Function.update_eq_self]
  rw [this]

lemma oneIn_counts0 : oneIn.sampleCounts 0 = 1 := by
  simp [oneIn, demoList, addSamples, addSample, initLearning, zeroGMM,
    Function.update_same]

lemma oneIn_total : oneIn.totalSampleCount = 1 := rfl

lemma fitCov_oneIn : fitCov oneIn 0 = fun _ _ => (0 : ℚ) := by
  funext r col
  simp [fitCov, fitMean, oneIn, demoList, addSamples, addSample, initLearning,
    zeroGMM, czero, Function.update_apply]

lemma covNew_oneIn : covNew (fitCov oneIn 0) (1 / 100) =
    addDiag (fun _ _ => (0 : ℚ)) (1 / 100) := by
  rw [fitCov_oneIn, covNew, if_pos]
  refine ⟨?_, by norm_num⟩
  norm_num [det3]

lemma det3_covNew_oneIn : det3 (covNew (fitCov oneIn 0) (1 / 100)) = 1 / 1000000 := by
  rw [covNew_oneIn]
  simp only [det3, addDiag, Fin.reduceEq, eq_self_iff_true, if_true, if_false,
    ite_true, ite_false]
  norm_num

lemma endStep_oneIn : endStep oneIn 0 = some oneOut := by
  rw [endStep, if_neg (by rw [oneIn_counts0]; norm_num),
    if_neg (by rw [oneIn_total]; norm_num)]
  have hpos : 0 < oneFit.coefs 0 := by
    simp only [oneFit, Function.update_same]
    rw [oneIn_counts0, oneIn_total]
    norm_num
  have hcov : oneFit.cov 0 = fitCov oneIn 0 := by
    simp only [oneFit, Function.update_same]
  have hguard : dblEpsilon < det3 (covNew (oneFit.cov 0) (1 / 100)) := by
    rw [hcov, det3_covNew_oneIn, dblEpsilon]
    norm_num
  exact (calc_active oneFit 0 (1 / 100) hpos hguard).trans rfl

lemma oneOut_keep : ∀ j : Fin 5, j ≠ 0 →
    oneOut.sampleCounts j = 0 ∧ oneOut.coefs j = 0 := by
  intro j hj
  constructor
  · simp [oneOut, oneFit, oneIn, demoList, addSamples, addSample, initLearning,
      zeroGMM, Function.update_apply, hj]
  · simp [oneOut, oneFit, oneIn, demoList, addSamples, addSample, initLearning,
      zeroGMM, Function.update_apply, hj]

lemma endLearning_oneIn : endLearning oneIn = some oneOut := by
  have k1 := oneOut_keep 1 (by decide)
  have k2 := oneOut_keep 2 (by decide)
  have k3 := oneOut_keep 3 (by decide)
  have k4 := oneOut_keep 4 (by decide)
  simp only [endLearning, componentIndices, List.foldlM_cons, List.foldlM_nil]
  rw [endStep_oneIn]
  simp only [Option.bind_eq_bind, Option.some_bind, endStep_keep 1 k1.1 k1.2,
    endStep_keep 2 k2.1 k2.2, endStep_keep 3 k3.1 k3.2, endStep_keep 4 k4.1 k4.2,
    Option.pure_def]

/-- Witness for C2 at the concrete one-sample pass. -/
theorem spec_C2_witness :
    demoList ≠ [] ∧
    endLearning (addSamples (initLearning zeroGMM) demoList) = some oneOut ∧
    ∑ ci ∈ Finset.univ.filter
      (fun ci => 0 < (addSamples (initLearning zeroGMM) demoList).sampleCounts ci),
      oneOut.coefs ci = 1 :=
  ⟨by simp [demoList], endLearning_oneIn,
    spec_C2 zeroGMM demoList oneOut (by simp [demoList]) endLearning_oneIn⟩

end ColorGMM

namespace ColorGMM

/-! The constructor path: claim C8. -/

lemma except_ok_bind {ε α β : Type} (a : α) (f : α → Except ε β) :
    (Except.ok a : Except ε α) >>= f = f a := rfl

lemma except_bind_ok {ε α β : Type} {x : Except ε α} {f : α → Except ε β} {b : β}
    (h : (x >>= f) = Except.ok b) : ∃ a, x = Except.ok a ∧ f a = Except.ok b := by
  cases x with
  | error e =>
    refine absurd h ?_
    simp only [Bind.bind, Except.bind]
    exact fun hh => by cases hh
  | ok a => exact ⟨a, rfl, by rw [← except_ok_bind a f]; exact h⟩

lemma covNew_zero (c : Fin 3 → Fin 3 → ℚ) : covNew c 0 = c := by
  simp [covNew]

lemma buildStep_not_active {s : GMM ℚ} {ci : Fin 5} (h : ¬ 0 < s.coefs ci) :
    buildStep s ci = Except.ok s := by
  simp [buildStep, h]

lemma buildStep_ok_fields {s t : GMM ℚ} {ci : Fin 5} (h : buildStep s ci = Except.ok t) :
    t.coefs = s.coefs ∧ t.mean = s.mean ∧ t.cov = s.cov ∧ t.sums = s.sums ∧
    t.prods = s.prods ∧ t.sampleCounts = s.sampleCounts ∧
    t.totalSampleCount = s.totalSampleCount ∧
    (∀ cj, cj ≠ ci → t.inverseCovs cj = s.inverseCovs cj ∧
      t.covDeterms cj = s.covDeterms cj) ∧
    (0 < s.coefs ci → t.covDeterms ci = det3 (s.cov ci) ∧
      dblEpsilon < det3 (s.cov ci) ∧
      t.inverseCovs ci = inv3 (s.cov ci) (det3 (s.cov ci))) := by
  by_cases hc : 0 < s.coefs ci
  · simp only [buildStep, if_pos hc] at h
    cases hcalc : calcInverseCovAndDeterm s ci 0 with
    | none => rw [hcalc] at h; cases h
    | some u =>
      rw [hcalc] at h
      simp only [Except.ok.injEq] at h
      subst h
      obtain ⟨hg, rfl⟩ := calc_eq_some hc hcalc
      rw [covNew_zero] at hg
      refine ⟨rfl, rfl, ?_, rfl, rfl, rfl, rfl, fun cj hne => ?_, fun _ => ?_⟩
      · simp only [covNew_zero, Function.update_eq_self]
      · exact ⟨Function.update_noteq hne _ _, Function.update_noteq hne _ _⟩
      · exact ⟨by simp only [covNew_zero, Function.update_same], hg,
          by simp only [covNew_zero, Function.update_same]⟩
  · rw [buildStep_not_active hc] at h
    simp only [Except.ok.injEq] at h
    subst h
    exact ⟨rfl, rfl, rfl, rfl, rfl, rfl, rfl, fun _ _ => ⟨rfl, rfl⟩,
      fun hcc => absurd hcc hc⟩

lemma foldl_buildStep_frame :
    ∀ (l : List (Fin 5)) (s t : GMM ℚ), List.foldlM buildStep s l = Except.ok t →
      ∀ cj, cj ∉ l → t.inverseCovs cj = s.inverseCovs cj ∧
        t.covDeterms cj = s.covDeterms cj := by
  intro l
  induction l with
  | nil =>
    intro s t h cj _
    have hh : (Except.ok s : Except CVError (GMM ℚ)) = Except.ok t := h
    obtain rfl : s = t := by simpa using hh
    exact ⟨rfl, rfl⟩
  | cons a l ih =>
    intro s t h cj hcj
    rw [List.foldlM_cons] at h
    obtain ⟨s1, h1, h2⟩ := except_bind_ok h
    have hne : cj ≠ a := fun hh => hcj (hh ▸ List.mem_cons_self a l)
    have hnl : cj ∉ l := fun hh => hcj (List.mem_cons_of_mem a hh)
    obtain ⟨-, -, -, -, -, -, -, e8, -⟩ := buildStep_ok_fields h1
    obtain ⟨f1, f2⟩ := ih s1 t h2 cj hnl
    obtain ⟨g1, g2⟩ := e8 cj hne
    exact ⟨f1.trans g1, f2.trans g2⟩

lemma foldl_buildStep_spec :
    ∀ (l : List (Fin 5)), l.Nodup → ∀ (s t : GMM ℚ),
      List.foldlM buildStep s l = Except.ok t →
      t.coefs = s.coefs ∧ t.mean = s.mean ∧ t.cov = s.cov ∧ t.sums = s.sums ∧
      t.prods = s.prods ∧ t.sampleCounts = s.sampleCounts ∧
      t.totalSampleCount = s.totalSampleCount ∧
      (∀ cj ∈ l, 0 < s.coefs cj → t.covDeterms cj = det3 (s.cov cj) ∧
        dblEpsilon < det3 (s.cov cj) ∧
        t.inverseCovs cj = inv3 (s.cov cj) (det3 (s.cov cj))) := by
  intro l
  induction l with
  | nil =>
    intro _ s t h
    have hh : (Except.ok s : Except CVError (GMM ℚ)) = Except.ok t := h
    obtain rfl : s = t := by simpa using hh
    exact ⟨rfl, rfl, rfl, rfl, rfl, rfl, rfl, fun cj hcj => absurd hcj (by simp)⟩
  | cons a l ih =>
    intro hnd s t h
    rw [List.foldlM_cons] at h
    obtain ⟨s1, h1, h2⟩ := except_bind_ok h
    obtain ⟨e1, e2, e3, e4, e5, e6, e7, e8, e9⟩ := buildStep_ok_fields h1
    obtain ⟨f1, f2, f3, f4, f5, f6, f7, f8⟩ := ih (List.nodup_cons.mp hnd).2 s1 t h2
    refine ⟨f1.trans e1, f2.trans e2, f3.trans e3, f4.trans e4, f5.trans e5,
      f6.trans e6, f7.trans e7, fun cj hcj hpos => ?_⟩
    rcases List.mem_cons.mp hcj with rfl | hmem
    · -- the step at `cj` primes its cache; the rest of the loop leaves it alone
      obtain ⟨g1, g2, g3⟩ := e9 hpos
      have hrest : cj ∉ l := (List.nodup_cons.mp hnd).1
      obtain ⟨k1, k2⟩ := foldl_buildStep_frame l s1 t h2 cj hrest
      exact ⟨k2.trans g1, g2, k1.trans g3⟩
    · have hpos1 : 0 < s1.coefs cj := by rw [e1]; exact hpos
      obtain ⟨k1, k2, k3⟩ := f8 cj hmem hpos1
      rw [e3] at k1 k2 k3
      exact ⟨k1, k2, k3⟩

end ColorGMM

namespace ColorGMM

lemma except_map_ok {ε α β : Type} {f : α → β} {x : Except ε α} {b : β}
    (h : Except.map f x = Except.ok b) : ∃ a, x = Except.ok a ∧ b = f a := by
  cases x with
  | error e => cases h
  | ok a =>
    refine ⟨a, rfl, ?_⟩
    simp only [Except.map] at h
    cases h
    rfl

lemma buildFrom_ok {data : ℕ → ℚ} {s : GMM ℚ} (h : buildFrom data = Except.ok s) :
    s.totalSampleCount = 0 ∧ ∀ ci, 0 < s.coefs ci →
      s.covDeterms ci = det3 (s.cov ci) ∧ dblEpsilon < s.covDeterms ci ∧
      s.inverseCovs ci = inv3 (s.cov ci) (det3 (s.cov ci)) := by
  rw [buildFrom] at h
  obtain ⟨t, ht, rfl⟩ := except_map_ok h
  obtain ⟨f1, -, f3, -, -, -, -, f8⟩ :=
    foldl_buildStep_spec componentIndices nodup_componentIndices _ t ht
  refine ⟨rfl, fun ci hpos => ?_⟩
  have hpos' : 0 < (baseGMM data).coefs ci := by
    rw [← f1]; exact hpos
  obtain ⟨k1, k2, k3⟩ := f8 ci (mem_componentIndices ci) hpos'
  rw [← f3] at k1 k2 k3
  exact ⟨k1, k1 ▸ k2, k3⟩

lemma construct_empty {m : Mat} (h : m.isEmpty = true) :
    construct m = Except.ok zeroGMM := by
  rw [construct, if_pos h, buildFrom]
  have hstep : ∀ ci : Fin 5,
      buildStep (baseGMM fun _ => 0) ci = Except.ok (baseGMM fun _ => 0) :=
    fun ci => buildStep_not_active (by norm_num [baseGMM])
  simp only [componentIndices, List.foldlM_cons, List.foldlM_nil, hstep,
    except_ok_bind]
  rfl

/-- Claim C8: constructing from an empty buffer yields the zero-filled
`13*5`-element model (all weights, means and covariances zero, total counter
zero); a non-empty buffer of the wrong element type or shape raises
`StsBadArg`; and any successful construction resets the total sample counter
and primes the cache, with no singularity correction, of every component with
positive weight. -/
theorem spec_C8 (m : Mat) :
    (m.isEmpty = true →
      construct m = Except.ok zeroGMM ∧ (∀ ci, zeroGMM.coefs ci = 0) ∧
      (∀ ci k, zeroGMM.mean ci k = 0) ∧ (∀ ci r col, zeroGMM.cov ci r col = 0) ∧
      zeroGMM.totalSampleCount = 0) ∧
    (m.isEmpty = false → (m.mtype ≠ CV64FC1 ∨ m.rows ≠ 1 ∨ m.cols ≠ 13 * 5) →
      construct m = Except.error CVError.badArg) ∧
    (∀ s, construct m = Except.ok s → s.totalSampleCount = 0 ∧
      ∀ ci, 0 < s.coefs ci → s.covDeterms ci = det3 (s.cov ci) ∧
        dblEpsilon < s.covDeterms ci ∧
        s.inverseCovs ci = inv3 (s.cov ci) (det3 (s.cov ci))) := by
  refine ⟨fun hemp => ⟨construct_empty hemp, fun ci => rfl, fun ci k => rfl,
    fun ci r col => rfl, rfl⟩, fun hemp hbad => ?_, fun s hok => ?_⟩
  · rw [construct, if_neg (by simp [hemp]), if_pos hbad]
  · by_cases hemp : m.isEmpty = true
    · rw [construct_empty hemp] at hok
      obtain rfl : zeroGMM = s := by simpa using hok
      exact ⟨rfl, fun ci hpos => absurd hpos (by norm_num [zeroGMM])⟩
    · rw [construct, if_neg hemp] at hok
      by_cases hbad : m.mtype ≠ CV64FC1 ∨ m.rows ≠ 1 ∨ m.cols ≠ 13 * 5
      · rw [if_pos hbad] at hok
        cases hok
      · rw [if_neg hbad] at hok
        exact buildFrom_ok hok

end ColorGMM

namespace ColorGMM

/-! The density evaluator: claims C3, C5, C9, C4. -/

lemma componentDensity_nonneg (s : GMM ℝ) (ci : Fin 5) (color : Fin 3 → ℝ) :
    0 ≤ componentDensity s ci color := by
  by_cases h : 0 < s.coefs ci
  · simp only [componentDensity, if_pos h]
    exact mul_nonneg (one_div_nonneg.mpr (Real.sqrt_nonneg _)) (Real.exp_pos _).le
  · simp only [componentDensity, if_neg h]
    exact le_refl 0

/-- Claim C9: every single-component density is non-negative. -/
theorem spec_C9 (s : GMM ℝ) (ci : Fin 5) (color : Fin 3 → ℝ) :
    0 ≤ componentDensity s ci color :=
  componentDensity_nonneg s ci color

/-- Claim C3: an inactive component has density zero; an active one (under
the asserted precondition that its cached determinant exceeds machine
epsilon) has density `exp(-Q/2)/sqrt(determinant)` with `Q` the Mahalanobis
quadratic form in the cached inverse covariance — no `(2*pi)^(3/2)` factor. -/
theorem spec_C3 (s : GMM ℝ) (ci : Fin 5) (color : Fin 3 → ℝ) :
    (s.coefs ci = 0 → componentDensity s ci color = 0) ∧
    (0 < s.coefs ci → dblEpsilonR < s.covDeterms ci →
      componentDensity s ci color =
        Real.exp (-(1 / 2) * ∑ r : Fin 3, ∑ col : Fin 3,
          (color r - s.mean ci r) * s.inverseCovs ci r col * (color col - s.mean ci col)) /
          Real.sqrt (s.covDeterms ci)) := by
  constructor
  · intro h
    simp [componentDensity, h]
  · intro h _
    simp only [componentDensity, if_pos h, Fin.sum_univ_three]
    rw [one_div_mul_eq_div]
    congr 2
    ring

/-- Claim C5: the mixture density is the weighted sum of the component
densities over all five components, with inactive components contributing
exactly zero. -/
theorem spec_C5 (s : GMM ℝ) (color : Fin 3 → ℝ) :
    mixtureDensity s color = ∑ ci : Fin 5, s.coefs ci * componentDensity s ci color ∧
    ∀ ci, s.coefs ci = 0 → s.coefs ci * componentDensity s ci color = 0 := by
  constructor
  · simp only [mixtureDensity, componentIndices, List.foldl_cons, List.foldl_nil,
      Fin.sum_univ_five]
    ring
  · intro ci h
    rw [h, zero_mul]

/-! The `whichComponent` scan: claim C4. -/

lemma wc_mono (s : GMM ℝ) (color : Fin 3 → ℝ) :
    ∀ (l : List (Fin 5)) (acc : Fin 5 × ℝ),
      acc.2 ≤ (l.foldl (wcStep s color) acc).2 := by
  intro l
  induction l with
  | nil => intro acc; exact le_refl _
  | cons a l ih =>
    intro acc
    rw [List.foldl_cons]
    refine le_trans ?_ (ih (wcStep s color acc a))
    rw [wcStep]
    split_ifs with h
    · exact le_of_lt h
    · exact le_refl _

lemma wc_le (s : GMM ℝ) (color : Fin 3 → ℝ) :
    ∀ (l : List (Fin 5)) (acc : Fin 5 × ℝ) (i : Fin 5), i ∈ l →
      componentDensity s i color ≤ (l.foldl (wcStep s color) acc).2 := by
  intro l
  induction l with
  | nil => intro acc i hi; cases hi
  | cons a l ih =>
    intro acc i hi
    rw [List.foldl_cons]
    rcases List.mem_cons.mp hi with rfl | hmem
    · refine le_trans ?_ (wc_mono s color l (wcStep s color acc i))
      rw [wcStep]
      split_ifs with h
      · exact le_refl _
      · exact not_lt.mp h
    · exact ih (wcStep s color acc a) i hmem

lemma wc_cases (s : GMM ℝ) (color : Fin 3 → ℝ) :
    ∀ (l : List (Fin 5)) (acc : Fin 5 × ℝ),
      l.foldl (wcStep s color) acc = acc ∨
      ((l.foldl (wcStep s color) acc).1 ∈ l ∧
        (l.foldl (wcStep s color) acc).2 =
          componentDensity s (l.foldl (wcStep s color) acc).1 color ∧
        acc.2 < (l.foldl (wcStep s color) acc).2) := by
  intro l
  induction l with
  | nil => intro acc; left; rfl
  | cons a l ih =>
    intro acc
    rw [List.foldl_cons]
    by_cases h : acc.2 < componentDensity s a color
    · have hstep : wcStep s color acc a = (a, componentDensity s a color) := by
        rw [wcStep, if_pos h]
      rw [hstep]
      rcases ih (a, componentDensity s a color) with heq | ⟨h1, h2, h3⟩
      · right
        rw [heq]
        exact ⟨List.mem_cons_self a l, rfl, h⟩
      · right
        exact ⟨List.mem_cons_of_mem a h1, h2, lt_trans h h3⟩
    · have hstep : wcStep s color acc a = acc := by rw [wcStep, if_neg h]
      rw [hstep]
      rcases ih acc with heq | ⟨h1, h2, h3⟩
      · left; exact heq
      · right; exact ⟨List.mem_cons_of_mem a h1, h2, h3⟩

lemma wc_lt (s : GMM ℝ) (color : Fin 3 → ℝ) :
    ∀ (l : List (Fin 5)), List.Pairwise (· < ·) l →
      ∀ (acc : Fin 5 × ℝ) (i : Fin 5), i ∈ l →
        acc.2 < (l.foldl (wcStep s color) acc).2 →
        i < (l.foldl (wcStep s color) acc).1 →
        componentDensity s i color < (l.foldl (wcStep s color) acc).2 := by
  intro l
  induction l with
  | nil => intro _ acc i hi; cases hi
  | cons a l ih =>
    intro hpw acc i hi hlt hik
    rw [List.foldl_cons] at hlt hik ⊢
    obtain ⟨hpa, hpl⟩ := List.pairwise_cons.mp hpw
    by_cases h : acc.2 < componentDensity s a color
    · have hstep : wcStep s color acc a = (a, componentDensity s a color) := by
        rw [wcStep, if_pos h]
      rw [hstep] at hlt hik ⊢
      rcases List.mem_cons.mp hi with rfl | hmem
      · rcases wc_cases s color l (i, componentDensity s i color) with heq | ⟨-, -, h3⟩
        · rw [heq] at hik
          exact absurd hik (lt_irrefl i)
        · exact h3
      · rcases wc_cases s color l (a, componentDensity s a color) with heq | ⟨-, -, h3⟩
        · rw [heq] at hik
          exact absurd hik (not_lt.mpr (le_of_lt (hpa i hmem)))
        · exact ih hpl (a, componentDensity s a color) i hmem h3 hik
    · have hstep : wcStep s color acc a = acc := by rw [wcStep, if_neg h]
      rw [hstep] at hlt hik ⊢
      rcases List.mem_cons.mp hi with rfl | hmem
      · exact lt_of_le_of_lt (not_lt.mp h) hlt
      · exact ih hpl acc i hmem hlt hik

/-- Claim C4: `whichComponent` returns an index of maximal component density;
any index below the returned one has strictly smaller density (ties go to the
lowest index scanned first); when no component has strictly positive density
the sentinel default index 0 is returned; and a component is only ever
selected over the default when its density is strictly positive (a density
of exactly 0 never beats index 0). -/
theorem spec_C4 (s : GMM ℝ) (color : Fin 3 → ℝ) :
    (∀ i, componentDensity s i color ≤
      componentDensity s (whichComponent s color) color) ∧
    (∀ i, i < whichComponent s color →
      componentDensity s i color <
        componentDensity s (whichComponent s color) color) ∧
    ((∀ i, componentDensity s i color ≤ 0) → whichComponent s color = 0) ∧
    (whichComponent s color ≠ 0 →
      0 < componentDensity s (whichComponent s color) color) := by
  have hmem : ∀ i : Fin 5, i ∈ componentIndices := by decide
  have hpw : List.Pairwise (· < ·) componentIndices := by decide
  rcases wc_cases s color componentIndices (0, 0) with heq | ⟨-, h2, h3⟩
  · have hk : whichComponent s color = 0 := by
      rw [whichComponent, heq]
    refine ⟨fun i => ?_, fun i hik => ?_, fun _ => hk, fun hne => absurd hk hne⟩
    · have hle := wc_le s color componentIndices (0, 0) i (hmem i)
      rw [heq] at hle
      rw [hk]
      exact le_trans hle (componentDensity_nonneg s 0 color)
    · rw [hk] at hik
      exact absurd hik (Fin.not_lt_zero i)
  · have hk : whichComponent s color =
        (componentIndices.foldl (wcStep s color) (0, 0)).1 := rfl
    refine ⟨fun i => ?_, fun i hik => ?_, fun hall => ?_, fun hne => ?_⟩
    · rw [hk, ← h2]
      exact wc_le s color componentIndices (0, 0) i (hmem i)
    · rw [hk, ← h2]
      rw [hk] at hik
      exact wc_lt s color componentIndices hpw (0, 0)
        i (hmem i) h3 hik
    · exact absurd (lt_of_lt_of_le (h2 ▸ h3) (hall _)) (lt_irrefl 0)
    · rw [hk, ← h2]
      exact h3

end ColorGMM

namespace ColorGMM

/-! Regularization of positive-semidefinite covariances: claim C6. -/

lemma quad_discrim (A B C : ℚ)
    (h : ∀ u v : ℚ, 0 ≤ A * u ^ 2 + 2 * B * u * v + C * v ^ 2) :
    B ^ 2 ≤ A * C := by
  have hA : 0 ≤ A := by nlinarith [h 1 0]
  rcases eq_or_lt_of_le hA with hA0 | hApos
  · have hB : B = 0 := by
      by_contra hB
      have hBne : (2 : ℚ) * B ≠ 0 := mul_ne_zero two_ne_zero hB
      have h2 := h (-(C + 1) / (2 * B)) 1
      rw [← hA0] at h2
      have hval : (0 : ℚ) * (-(C + 1) / (2 * B)) ^ 2 +
          2 * B * (-(C + 1) / (2 * B)) * 1 + C * 1 ^ 2 = -1 := by
        field_simp
      rw [hval] at h2
      linarith
    rw [hB, ← hA0]
    norm_num
  · nlinarith [h B (-A), hApos]

lemma psd_quad12 {c : Fin 3 → Fin 3 → ℚ} (hsym : ∀ r col, c r col = c col r)
    (hpsd : ∀ x, 0 ≤ quadForm3 c x) :
    ∀ u v : ℚ, 0 ≤ c 1 1 * u ^ 2 + 2 * c 1 2 * u * v + c 2 2 * v ^ 2 := by
  intro u v
  have h := hpsd (fun j => if j = 1 then u else if j = 2 then v else 0)
  simp only [quadForm3, Fin.reduceEq, ite_true, ite_false, if_true, if_false,
    zero_mul, mul_zero, add_zero, zero_add] at h
  rw [hsym 2 1] at h
  nlinarith [h]

lemma psd_quad02 {c : Fin 3 → Fin 3 → ℚ} (hsym : ∀ r col, c r col = c col r)
    (hpsd : ∀ x, 0 ≤ quadForm3 c x) :
    ∀ u v : ℚ, 0 ≤ c 0 0 * u ^ 2 + 2 * c 0 2 * u * v + c 2 2 * v ^ 2 := by
  intro u v
  have h := hpsd (fun j => if j = 0 then u else if j = 2 then v else 0)
  simp only [quadForm3, Fin.reduceEq, ite_true, ite_false, if_true, if_false,
    zero_mul, mul_zero, add_zero, zero_add] at h
  rw [hsym 2 0] at h
  nlinarith [h]

lemma psd_quad01 {c : Fin 3 → Fin 3 → ℚ} (hsym : ∀ r col, c r col = c col r)
    (hpsd : ∀ x, 0 ≤ quadForm3 c x) :
    ∀ u v : ℚ, 0 ≤ c 0 0 * u ^ 2 + 2 * c 0 1 * u * v + c 1 1 * v ^ 2 := by
  intro u v
  have h := hpsd (fun j => if j = 0 then u else if j = 1 then v else 0)
  simp only [quadForm3, Fin.reduceEq, ite_true, ite_false, if_true, if_false,
    zero_mul, mul_zero, add_zero, zero_add] at h
  rw [hsym 1 0] at h
  nlinarith [h]

lemma det3_nonneg {c : Fin 3 → Fin 3 → ℚ} (hsym : ∀ r col, c r col = c col r)
    (hpsd : ∀ x, 0 ≤ quadForm3 c x) : 0 ≤ det3 c := by
  have h00 : 0 ≤ c 0 0 := by nlinarith [psd_quad01 hsym hpsd 1 0]
  rcases eq_or_lt_of_le h00 with h0 | h0
  · have hd01 : (c 0 1) ^ 2 ≤ c 0 0 * c 1 1 := quad_discrim _ _ _ (psd_quad01 hsym hpsd)
    have hd02 : (c 0 2) ^ 2 ≤ c 0 0 * c 2 2 := quad_discrim _ _ _ (psd_quad02 hsym hpsd)
    rw [← h0] at hd01 hd02
    have h01 : c 0 1 = 0 := by
      have : (c 0 1) ^ 2 = 0 := le_antisymm (by nlinarith) (sq_nonneg _)
      exact (pow_eq_zero_iff two_ne_zero).mp this
    have h02 : c 0 2 = 0 := by
      have : (c 0 2) ^ 2 = 0 := le_antisymm (by nlinarith) (sq_nonneg _)
      exact (pow_eq_zero_iff two_ne_zero).mp this
    have h10 : c 1 0 = 0 := (hsym 1 0).trans h01
    have h20 : c 2 0 = 0 := (hsym 2 0).trans h02
    rw [det3, ← h0, h01, h02, h10, h20]
    ring_nf
    exact le_refl 0
  · have hkey : ∀ u v : ℚ, 0 ≤ (c 0 0 * c 1 1 - c 0 1 ^ 2) * u ^ 2 +
        2 * (c 0 0 * c 1 2 - c 0 1 * c 0 2) * u * v +
        (c 0 0 * c 2 2 - c 0 2 ^ 2) * v ^ 2 := by
      intro u v
      have hq := hpsd (fun j =>
        if j = 0 then -(c 0 1 * u + c 0 2 * v) / c 0 0 else if j = 1 then u else v)
      have hEq : (c 0 0 * c 1 1 - c 0 1 ^ 2) * u ^ 2 +
          2 * (c 0 0 * c 1 2 - c 0 1 * c 0 2) * u * v +
          (c 0 0 * c 2 2 - c 0 2 ^ 2) * v ^ 2 =
          c 0 0 * quadForm3 c (fun j =>
            if j = 0 then -(c 0 1 * u + c 0 2 * v) / c 0 0 else if j = 1 then u else v) := by
        simp only [quadForm3, Fin.reduceEq, ite_true, ite_false, if_true, if_false]
        rw [hsym 1 0, hsym 2 0, hsym 2 1]
        field_simp
        ring
      rw [hEq]
      exact mul_nonneg (le_of_lt h0) hq
    have hd : (c 0 0 * c 1 2 - c 0 1 * c 0 2) ^ 2 ≤
        (c 0 0 * c 1 1 - c 0 1 ^ 2) * (c 0 0 * c 2 2 - c 0 2 ^ 2) :=
      quad_discrim _ _ _ hkey
    have hid : c 0 0 * det3 c = (c 0 0 * c 1 1 - c 0 1 ^ 2) * (c 0 0 * c 2 2 - c 0 2 ^ 2) -
        (c 0 0 * c 1 2 - c 0 1 * c 0 2) ^ 2 := by
      rw [det3, hsym 1 0, hsym 2 0, hsym 2 1]
      ring
    by_contra hneg
    push_neg at hneg
    nlinarith [hid, hd, h0]

lemma det3_addDiag (c : Fin 3 → Fin 3 → ℚ) (f : ℚ) :
    det3 (addDiag c f) = det3 c +
      f * ((c 1 1 * c 2 2 - c 1 2 * c 2 1) + (c 0 0 * c 2 2 - c 0 2 * c 2 0) +
        (c 0 0 * c 1 1 - c 0 1 * c 1 0)) +
      f ^ 2 * (c 0 0 + c 1 1 + c 2 2) + f ^ 3 := by
  simp only [det3, addDiag, Fin.reduceEq, ite_true, ite_false, if_true, if_false]
  ring

lemma det3_addDiag_ge {c : Fin 3 → Fin 3 → ℚ} (hsym : ∀ r col, c r col = c col r)
    (hpsd : ∀ x, 0 ≤ quadForm3 c x) :
    1 / 1000000 ≤ det3 (addDiag c (1 / 100)) := by
  have hdet := det3_nonneg hsym hpsd
  have hm0 : 0 ≤ c 1 1 * c 2 2 - c 1 2 * c 2 1 := by
    have := quad_discrim _ _ _ (psd_quad12 hsym hpsd)
    rw [hsym 2 1]
    nlinarith [this]
  have hm4 : 0 ≤ c 0 0 * c 2 2 - c 0 2 * c 2 0 := by
    have := quad_discrim _ _ _ (psd_quad02 hsym hpsd)
    rw [hsym 2 0]
    nlinarith [this]
  have hm8 : 0 ≤ c 0 0 * c 1 1 - c 0 1 * c 1 0 := by
    have := quad_discrim _ _ _ (psd_quad01 hsym hpsd)
    rw [hsym 1 0]
    nlinarith [this]
  have h00 : 0 ≤ c 0 0 := by nlinarith [psd_quad01 hsym hpsd 1 0]
  have h11 : 0 ≤ c 1 1 := by nlinarith [psd_quad01 hsym hpsd 0 1]
  have h22 : 0 ≤ c 2 2 := by nlinarith [psd_quad02 hsym hpsd 0 1]
  rw [det3_addDiag]
  nlinarith [hdet, hm0, hm4, hm8, h00, h11, h22]

/-- Counterexample to claim C6 as stated: the symmetric (but not positive
semidefinite) covariance with `c[0][0] = -0.01` and every other entry zero
has determinant 0 <= 1e-6, yet after the 0.01 diagonal fix its determinant is
still 0, so the fatal assertion fires (`calcInverseCovAndDeterm` aborts). -/
theorem spec_C6_cex :
    det3 (cexC6In.cov 0) ≤ 1 / 1000000 ∧ 0 < cexC6In.coefs 0 ∧
      calcInverseCovAndDeterm cexC6In 0 (1 / 100) = none := by
  have hc : det3 (cexC6In.cov 0) = 0 := by
    simp only [cexC6In, zeroGMM, det3, Fin.reduceEq, ite_true, ite_false,
      if_true, if_false, true_and, and_true, and_false, false_and]
    norm_num
  have hpos : 0 < cexC6In.coefs 0 := by norm_num [cexC6In, zeroGMM]
  have hcn : covNew (cexC6In.cov 0) (1 / 100) = addDiag (cexC6In.cov 0) (1 / 100) := by
    rw [covNew, if_pos ⟨by rw [hc]; norm_num, by norm_num⟩]
  have hd : det3 (addDiag (cexC6In.cov 0) (1 / 100)) = 0 := by
    simp only [cexC6In, zeroGMM, det3, addDiag, Fin.reduceEq, ite_true, ite_false,
      if_true, if_false, true_and, and_true, and_false, false_and]
    norm_num
  refine ⟨by rw [hc]; norm_num, hpos, ?_⟩
  simp only [calcInverseCovAndDeterm, if_pos hpos, hcn, hd]
  rw [if_neg (by norm_num [dblEpsilon])]

/-- Claim C6, amended: the unconditional claim fails for a covariance that is
not positive semidefinite (see the counterexample), but for every symmetric
positive-semidefinite covariance with determinant at most 1e-6 — which is
what `endLearning`'s empirical covariances are — the 0.01 diagonal fix is
applied and the recomputed determinant exceeds machine epsilon, so the fatal
assertion after regularization is unreachable. -/
theorem spec_C6_amended (s : GMM ℚ) (ci : Fin 5)
    (hw : 0 < s.coefs ci)
    (hsym : ∀ r col, s.cov ci r col = s.cov ci col r)
    (hpsd : ∀ x, 0 ≤ quadForm3 (s.cov ci) x)
    (hdet : det3 (s.cov ci) ≤ 1 / 1000000) :
    calcInverseCovAndDeterm s ci (1 / 100) = some
      { s with
        cov := Function.update s.cov ci (addDiag (s.cov ci) (1 / 100)),
        covDeterms := Function.update s.covDeterms ci
          (det3 (addDiag (s.cov ci) (1 / 100))),
        inverseCovs := Function.update s.inverseCovs ci
          (inv3 (addDiag (s.cov ci) (1 / 100)) (det3 (addDiag (s.cov ci) (1 / 100)))) } ∧
    dblEpsilon < det3 (addDiag (s.cov ci) (1 / 100)) := by
  have hcn : covNew (s.cov ci) (1 / 100) = addDiag (s.cov ci) (1 / 100) := by
    rw [covNew, if_pos ⟨hdet, by norm_num⟩]
  have hguard : dblEpsilon < det3 (addDiag (s.cov ci) (1 / 100)) :=
    lt_of_lt_of_le (by norm_num [dblEpsilon]) (det3_addDiag_ge hsym hpsd)
  refine ⟨?_, hguard⟩
  rw [calc_active s ci (1 / 100) hw (hcn ▸ hguard), hcn]

/-- Witness for the amended C6 at the zero covariance (symmetric, positive
semidefinite, determinant 0). -/
theorem spec_C6_witness :
    0 < psdIn.coefs 0 ∧ det3 (psdIn.cov 0) ≤ 1 / 1000000 ∧
      dblEpsilon < det3 (addDiag (psdIn.cov 0) (1 / 100)) :=
  ⟨by norm_num [psdIn, zeroGMM], by norm_num [psdIn, zeroGMM, det3],
    (spec_C6_amended psdIn 0 (by norm_num [psdIn, zeroGMM])
      (fun r col => rfl)
      (fun x => by simp [quadForm3, psdIn, zeroGMM])
      (by norm_num [psdIn, zeroGMM, det3])).2⟩

end ColorGMM

namespace ColorGMM

/-! Repeated cache recomputation: claim C7. -/

/-- Claim C7, amended: a second `calcInverseCovAndDeterm` call with the same
fix is a no-op provided the first call left a determinant above the 1e-6
regularization floor or the fix is not positive; without that proviso the
second call regularizes (and mutates the covariance) again — see the
counterexample. -/
theorem spec_C7_amended (s t u : GMM ℚ) (ci : Fin 5) (fix : ℚ)
    (h1 : calcInverseCovAndDeterm s ci fix = some t)
    (h2 : calcInverseCovAndDeterm t ci fix = some u)
    (hnr : 0 < s.coefs ci → fix ≤ 0 ∨ 1 / 1000000 < t.covDeterms ci) :
    u = t := by
  by_cases hc : 0 < s.coefs ci
  · obtain ⟨hg, ht⟩ := calc_eq_some hc h1
    have htcoef : t.coefs ci = s.coefs ci := by rw [ht]
    have htcov : t.cov ci = covNew (s.cov ci) fix := by
      rw [ht]; exact Function.update_same ci _ _
    have htdet : t.covDeterms ci = det3 (covNew (s.cov ci) fix) := by
      rw [ht]; exact Function.update_same ci _ _
    have htinv : t.inverseCovs ci =
        inv3 (covNew (s.cov ci) fix) (det3 (covNew (s.cov ci) fix)) := by
      rw [ht]; exact Function.update_same ci _ _
    have hc2 : 0 < t.coefs ci := htcoef ▸ hc
    have hcn2 : covNew (t.cov ci) fix = t.cov ci := by
      rw [covNew, if_neg]
      rintro ⟨hle, hfix⟩
      rcases hnr hc with hf | hgt
      · linarith
      · rw [htcov] at hle
        rw [htdet] at hgt
        linarith
    obtain ⟨hg2, hu⟩ := calc_eq_some hc2 h2
    rw [hu]
    have e1 : Function.update t.cov ci (covNew (t.cov ci) fix) = t.cov := by
      rw [hcn2, Function.update_eq_self]
    have e2 : Function.update t.covDeterms ci (det3 (covNew (t.cov ci) fix)) =
        t.covDeterms := by
      rw [hcn2]
      have hh : det3 (t.cov ci) = t.covDeterms ci := by rw [htcov, htdet]
      rw [hh, Function.update_eq_self]
    have e3 : Function.update t.inverseCovs ci
        (inv3 (covNew (t.cov ci) fix) (det3 (covNew (t.cov ci) fix))) =
        t.inverseCovs := by
      rw [hcn2]
      have hh : inv3 (t.cov ci) (det3 (t.cov ci)) = t.inverseCovs ci := by
        rw [htcov, htinv]
      rw [hh, Function.update_eq_self]
    rw [e1, e2, e3]
  · rw [calc_not_active hc] at h1
    obtain rfl : s = t := by simpa using h1
    rw [calc_not_active hc] at h2
    exact (Option.some_inj.mp h2).symm

lemma cexC7In_det : det3 (cexC7In.cov 0) = 0 := by
  simp only [cexC7In, zeroGMM, det3, Fin.reduceEq, ite_true, ite_false,
    if_true, if_false, true_and, and_true, and_false, false_and]
  norm_num

lemma cexC7In_covNew : covNew (cexC7In.cov 0) (1 / 100) =
    addDiag (cexC7In.cov 0) (1 / 100) := by
  rw [covNew, if_pos ⟨by rw [cexC7In_det]; norm_num, by norm_num⟩]

lemma cexC7In_det1 : det3 (addDiag (cexC7In.cov 0) (1 / 100)) = 1 / 100000000 := by
  simp only [cexC7In, zeroGMM, det3, addDiag, Fin.reduceEq, ite_true, ite_false,
    if_true, if_false, true_and, and_true, and_false, false_and]
  norm_num

lemma addDiag_addDiag (c : Fin 3 → Fin 3 → ℚ) (f g : ℚ) :
    addDiag (addDiag c f) g = addDiag c (f + g) := by
  funext r col
  simp only [addDiag]
  split_ifs <;> ring

set_option maxRecDepth 4000 in
lemma cexC7In_det2 :
    det3 (addDiag (addDiag (cexC7In.cov 0) (1 / 100)) (1 / 100)) = 101 / 25000000 := by
  rw [addDiag_addDiag]
  simp only [cexC7In, zeroGMM, det3, addDiag, Fin.reduceEq, ite_true, ite_false,
    if_true, if_false, true_and, and_true, and_false, false_and]
  norm_num

/-- Counterexample to claim C7 as stated: on the covariance
`diag(0, 0, -0.0099)` with fix 0.01, the first call regularizes to determinant
1e-8, and the second call — the determinant still being at most 1e-6 —
regularizes again, mutating the covariance once more and caching a different
determinant (101/25000000 instead of 1/100000000). -/
theorem spec_C7_cex :
    calcInverseCovAndDeterm cexC7In 0 (1 / 100) = some cexC7Mid ∧
    calcInverseCovAndDeterm cexC7Mid 0 (1 / 100) = some cexC7End ∧
    cexC7End.covDeterms 0 ≠ cexC7Mid.covDeterms 0 := by
  have hpos : 0 < cexC7In.coefs 0 := by norm_num [cexC7In, zeroGMM]
  have hguard1 : dblEpsilon < det3 (covNew (cexC7In.cov 0) (1 / 100)) := by
    rw [cexC7In_covNew, cexC7In_det1, dblEpsilon]
    norm_num
  have hmidcov : cexC7Mid.cov 0 = addDiag (cexC7In.cov 0) (1 / 100) := by
    show Function.update cexC7In.cov 0 (covNew (cexC7In.cov 0) (1 / 100)) 0 = _
    rw [Function.update_same, cexC7In_covNew]
  have hmiddet : cexC7Mid.covDeterms 0 = 1 / 100000000 := by
    show Function.update cexC7In.covDeterms 0
      (det3 (covNew (cexC7In.cov 0) (1 / 100))) 0 = _
    rw [Function.update_same, cexC7In_covNew, cexC7In_det1]
  have hmidpos : 0 < cexC7Mid.coefs 0 := hpos
  have hcn2 : covNew (cexC7Mid.cov 0) (1 / 100) = addDiag (cexC7Mid.cov 0) (1 / 100) := by
    rw [covNew, if_pos ⟨by rw [hmidcov, cexC7In_det1]; norm_num, by norm_num⟩]
  have hd2 : det3 (addDiag (cexC7Mid.cov 0) (1 / 100)) = 101 / 25000000 := by
    rw [hmidcov, cexC7In_det2]
  have hguard2 : dblEpsilon < det3 (covNew (cexC7Mid.cov 0) (1 / 100)) := by
    rw [hcn2, hd2, dblEpsilon]
    norm_num
  refine ⟨?_, ?_, ?_⟩
  · rw [calc_active cexC7In 0 (1 / 100) hpos hguard1]
    rfl
  · rw [calc_active cexC7Mid 0 (1 / 100) hmidpos hguard2]
    rfl
  · have hend : cexC7End.covDeterms 0 = 101 / 25000000 := by
      show Function.update cexC7Mid.covDeterms 0
        (det3 (covNew (cexC7Mid.cov 0) (1 / 100))) 0 = _
      rw [Function.update_same, hcn2, hd2]
    rw [hend, hmiddet]
    norm_num

lemma idIn_det : det3 (idIn.cov 0) = 1 := by
  simp only [idIn, zeroGMM, det3, Fin.reduceEq, ite_true, ite_false,
    if_true, if_false, true_and, and_true, and_false, false_and]
  norm_num

lemma covNew_idIn : covNew (idIn.cov 0) (1 / 100) = idIn.cov 0 := by
  rw [covNew, if_neg]
  rintro ⟨hle, -⟩
  rw [idIn_det] at hle
  norm_num at hle

lemma calc_idIn : calcInverseCovAndDeterm idIn 0 (1 / 100) = some idOut := by
  rw [calc_active idIn 0 (1 / 100) (by norm_num [idIn, zeroGMM])
    (by rw [covNew_idIn, idIn_det, dblEpsilon]; norm_num)]
  rfl

lemma idOut_cov : idOut.cov 0 = idIn.cov 0 := by
  show Function.update idIn.cov 0 (covNew (idIn.cov 0) (1 / 100)) 0 = _
  rw [Function.update_same, covNew_idIn]

lemma idOut_det : idOut.covDeterms 0 = 1 := by
  show Function.update idIn.covDeterms 0 (det3 (covNew (idIn.cov 0) (1 / 100))) 0 = _
  rw [Function.update_same, covNew_idIn, idIn_det]

lemma calc_idOut : calcInverseCovAndDeterm idOut 0 (1 / 100) = some idOut := by
  have hpos : 0 < idOut.coefs 0 := by norm_num [idOut, idIn, zeroGMM]
  have hcn : covNew (idOut.cov 0) (1 / 100) = idOut.cov 0 := by
    rw [idOut_cov, covNew_idIn]
  have hguard : dblEpsilon < det3 (covNew (idOut.cov 0) (1 / 100)) := by
    rw [hcn, idOut_cov, idIn_det, dblEpsilon]
    norm_num
  rw [calc_active idOut 0 (1 / 100) hpos hguard]
  have e1 : Function.update idOut.cov 0 (covNew (idOut.cov 0) (1 / 100)) = idOut.cov := by
    rw [hcn, Function.update_eq_self]
  have e2 : Function.update idOut.covDeterms 0
      (det3 (covNew (idOut.cov 0) (1 / 100))) = idOut.covDeterms := by
    have hh : det3 (covNew (idOut.cov 0) (1 / 100)) = idOut.covDeterms 0 := by
      rw [hcn, idOut_cov, idIn_det, idOut_det]
    rw [hh, Function.update_eq_self]
  have e3 : Function.update idOut.inverseCovs 0
      (inv3 (covNew (idOut.cov 0) (1 / 100)) (det3 (covNew (idOut.cov 0) (1 / 100)))) =
      idOut.inverseCovs := by
    have hh : inv3 (covNew (idOut.cov 0) (1 / 100))
        (det3 (covNew (idOut.cov 0) (1 / 100))) = idOut.inverseCovs 0 := by
      rw [hcn, idOut_cov]
      show _ = Function.update idIn.inverseCovs 0
        (inv3 (covNew (idIn.cov 0) (1 / 100)) (det3 (covNew (idIn.cov 0) (1 / 100)))) 0
      rw [Function.update_same, covNew_idIn]
    rw [hh, Function.update_eq_self]
  rw [e1, e2, e3]

/-- Witness for the amended C7: on the identity covariance the second call
reproduces the first call's state bit for bit. -/
theorem spec_C7_witness :
    calcInverseCovAndDeterm idIn 0 (1 / 100) = some idOut ∧
    calcInverseCovAndDeterm idOut 0 (1 / 100) = some idOut ∧
    (1 : ℚ) / 1000000 < idOut.covDeterms 0 ∧
    idOut = idOut :=
  ⟨calc_idIn, calc_idOut, by rw [idOut_det]; norm_num,
    spec_C7_amended idIn idOut idOut 0 (1 / 100) calc_idIn calc_idOut
      (fun _ => Or.inr (by rw [idOut_det]; norm_num))⟩

end ColorGMM
